import Mathlib

/-!
Verification of the job lifecycle management and status-reconciliation core of
the jobs service (`src/services/jobs/jobs/service.py`), shallowly embedded in
Lean.  Timestamps are modelled as natural numbers, execution-unit status
readings from the orchestrator as optional values (the orchestrator may report
an empty status or an empty execution time), and the uniform response envelope
as an inductive outcome type whose constructors mirror the return sites of the
Python methods.
-/

/-- Modelled from the spec: the jobs `models` module is not under `src/`.
The spec fixes the closed status enumeration as
`created, queued, running, canceled, error, finished`. -/
inductive JobStatus where
  | created
  | queued
  | running
  | canceled
  | error
  | finished
deriving DecidableEq, BEq, Repr

/-- Modelled from the spec: the jobs `models` module is not under `src/`.
Only the fields the verified operations touch are carried: the owning user,
the (possibly still unset) status and the status-last-updated timestamp. -/
structure Job where
  user_id : String
  status : Option JobStatus
  status_updated_at : Nat
deriving DecidableEq, Repr

/-- Modelled from the spec: the airflow connection module is not under `src/`.
`check_dag_status` returns a pair `(status | empty, last_execution_time | empty)`
for one execution unit (dag) of a job. -/
abbrev Reading := Option JobStatus × Option Nat

/-- Error classes raised by the service, mirroring the Python exception
classes.  Modelled from the spec: the jobs `exceptions` module is not under
`src/`; per the spec's error taxonomy `Locked` and `NotFinished` are
non-internal client errors while `Internal` faults carry `internal=true`. -/
inductive ErrKind where
  | serviceException
  | jobLocked
  | jobNotFinished
deriving DecidableEq, Repr

/-- The serialized error envelope, reduced to the fields the claims talk
about: the raising class, the HTTP-equivalent code and the `internal` flag. -/
structure ErrEnv where
  kind : ErrKind
  code : Nat
  internal : Bool
deriving DecidableEq, Repr

/-- Outcome of one rpc method: an error envelope produced by this service, a
collaborator response passed through verbatim, or a success envelope with its
code. -/
inductive OpOutcome where
  | err (e : ErrEnv)
  | passthrough
  | success (code : Nat)
deriving DecidableEq, Repr

/-- `authorize`: the job does not exist (`ServiceException(400, internal=False)`). -/
def notFoundErr : ErrEnv := ⟨ErrKind.serviceException, 400, false⟩

/-- `authorize`: the job belongs to another user (`ServiceException(401, internal=False)`). -/
def unauthorizedErr : ErrEnv := ⟨ErrKind.serviceException, 401, false⟩

/-- `modify` on a queued/running job raises `JobLocked(400, ...)`.  Modelled
from the spec: the `JobLocked` default for `internal` lives in the missing
`exceptions` module; the spec calls the locked condition non-internal. -/
def modifyLockedErr : ErrEnv := ⟨ErrKind.jobLocked, 400, false⟩

/-- `process` on a queued/running job returns
`ServiceException(400, ..., internal=False)` (explicit in the source). -/
def processLockedErr : ErrEnv := ⟨ErrKind.serviceException, 400, false⟩

/-- The catch-all `ServiceException(500, ...)` for unexpected exceptions.
Modelled from the spec: the default `internal=True` lives in the missing
`exceptions` module. -/
def internalErr : ErrEnv := ⟨ErrKind.serviceException, 500, true⟩

/-- `get_results` on a job in status `error`: `ServiceException(424, internal=False)`. -/
def jobErrorErr : ErrEnv := ⟨ErrKind.serviceException, 424, false⟩

/-- `get_results` on a canceled job: `ServiceException(400, internal=False)`. -/
def jobCanceledErr : ErrEnv := ⟨ErrKind.serviceException, 400, false⟩

/-- `get_results` on an unfinished job: `JobNotFinished(400, ..., internal=False)`
(code and flag explicit at the call site). -/
def notFinishedErr : ErrEnv := ⟨ErrKind.jobNotFinished, 400, false⟩

/-- The candidate filter of `_update_job_status`: a reading
`(new_status, execution_time)` for one dag qualifies when `new_status` is
non-empty and the job has no status yet, or the current status is one of
`created, queued, running, error`, or the reading's execution time is set and
strictly newer than `status_updated_at`. -/
def qualifies (job : Job) (r : Reading) : Bool :=
  match r.1 with
  | none => false
  | some _ =>
    job.status.isNone
    || (match job.status with
        | some s =>
          [JobStatus.created, JobStatus.queued, JobStatus.running,
            JobStatus.error].contains s
        | none => false)
    || (match r.2 with
        | some t => decide (job.status_updated_at < t)
        | none => false)

/-- The collection loop of `_update_job_status`: the parallel lists
`all_status` / `all_execution_time`, kept here as one list of pairs. -/
def collectCandidates (job : Job) (rs : List Reading) :
    List (JobStatus × Option Nat) :=
  rs.filterMap fun r =>
    if qualifies job r then r.1.map (fun s => (s, r.2)) else none

/-- Python's `max` over the `all_execution_time` list: it raises (here `none`)
as soon as two elements are compared and one is `None`. `allSome` extracts the
underlying times when every entry is set. -/
def allSome : List (Option Nat) → Option (List Nat)
  | [] => some []
  | none :: _ => none
  | some t :: r => (allSome r).map (t :: ·)

/-- `_update_job_status` after the collection loop: with no candidate the job
is left untouched (no commit); when all candidate statuses agree the first one
is written; otherwise the status at the first index of the maximal execution
time is written.  A `none` result models an uncaught Python exception
(`max`/indexing over missing execution times), which the caller's
`except` clause turns into a 500 envelope, leaving the job row unchanged. -/
def updateJobStatus (job : Job) (rs : List Reading) (now : Nat) : Option Job :=
  match collectCandidates job rs with
  | [] => some job
  | c0 :: cs =>
    if (c0 :: cs).all (fun d => d.1 == c0.1) then
      some { job with status := some c0.1, status_updated_at := now }
    else
      match allSome ((c0 :: cs).map Prod.snd) with
      | none => none
      | some ts =>
        match ts.max? with
        | none => none
        | some m =>
          match (c0 :: cs).get? (ts.indexOf m) with
          | none => none
          | some cmax =>
            some { job with status := some cmax.1, status_updated_at := now }

/-- `_set_job_status`: write the new status together with a fresh
`status_updated_at` and commit. -/
def setJobStatus (job : Job) (newStatus : JobStatus) (now : Nat) : Job :=
  { job with status := some newStatus, status_updated_at := now }

example :
    updateJobStatus ⟨"u", some JobStatus.running, 3⟩
      [(some JobStatus.finished, some 5), (some JobStatus.error, some 9)] 10
    = some ⟨"u", some JobStatus.error, 10⟩ := by decide

example :
    updateJobStatus ⟨"u", some JobStatus.finished, 3⟩
      [(some JobStatus.error, some 2), (none, none)] 10
    = some ⟨"u", some JobStatus.finished, 3⟩ := by decide

/-- The locked-state guard shared by `modify`, `process`, `delete` and
`cancel_processing`: `job.status in [JobStatus.queued, JobStatus.running]`. -/
def isActive (s : Option JobStatus) : Bool :=
  s == some JobStatus.queued || s == some JobStatus.running

/-- `get`: query the job row, `authorize`, reconcile the status, fetch the
process graph (`graphOk` abstracts the processes-service response) and return
the job.  The second component is the job row afterwards. -/
def getModel (uid : String) (jobRow : Option Job) (rs : List Reading)
    (now : Nat) (graphOk : Bool) : OpOutcome × Option Job :=
  match jobRow with
  | none => (OpOutcome.err notFoundErr, none)
  | some job =>
    if job.user_id = uid then
      match updateJobStatus job rs now with
      | none => (OpOutcome.err internalErr, some job)
      | some job1 =>
        if graphOk then (OpOutcome.success 200, some job1)
        else (OpOutcome.passthrough, some job1)
    else (OpOutcome.err unauthorizedErr, some job)

/-- `modify`: after authorization and reconciliation, a queued/running job is
rejected with `JobLocked`; otherwise the optional process-graph update
(`processArg`: `none` = no `process` argument, `some ok` = the
processes-service `put` succeeded/failed) is applied and the metadata commit
returns 204.  Only the status field is tracked; `modify` never writes it. -/
def modifyModel (uid : String) (jobRow : Option Job) (rs : List Reading)
    (now : Nat) (processArg : Option Bool) : OpOutcome × Option Job :=
  match jobRow with
  | none => (OpOutcome.err notFoundErr, none)
  | some job =>
    if job.user_id = uid then
      match updateJobStatus job rs now with
      | none => (OpOutcome.err internalErr, some job)
      | some job1 =>
        if isActive job1.status then (OpOutcome.err modifyLockedErr, some job1)
        else
          match processArg with
          | some false => (OpOutcome.passthrough, some job1)
          | _ => (OpOutcome.success 204, some job1)
    else (OpOutcome.err unauthorizedErr, some job)

/-- Side effects of one `delete` call, in the order the source performs them. -/
structure DeleteEffects where
  stopInvoked : Bool
  fsDeletedImmediately : Bool
  fsDeleteScheduledDelayed : Bool
  dagsRemoved : Bool
deriving DecidableEq, Repr

def noDeleteEffects : DeleteEffects := ⟨false, false, false, false⟩

/-- `delete`: authorize, reconcile, stop the job when queued/running, then
either schedule the filesystem cleanup on a background thread (`delayed`) or
delete it inline, and in both cases remove the dag files, delete every dag
from the orchestrator and delete the database row (`none` in the second
component). -/
def deleteModel (uid : String) (jobRow : Option Job) (rs : List Reading)
    (now : Nat) (delayed : Bool) : OpOutcome × Option Job × DeleteEffects :=
  match jobRow with
  | none => (OpOutcome.err notFoundErr, none, noDeleteEffects)
  | some job =>
    if job.user_id = uid then
      match updateJobStatus job rs now with
      | none => (OpOutcome.err internalErr, some job, noDeleteEffects)
      | some job1 =>
        (OpOutcome.success 204, none,
          ⟨isActive job1.status, !delayed, delayed, true⟩)
    else (OpOutcome.err unauthorizedErr, some job, noDeleteEffects)

/-- `process`: authorize, reconcile, reject queued/running jobs with a
400/non-internal `ServiceException`, then walk the collaborator chain —
predefined processes (`pre`), the user-defined graph (`ug`), input filepath
resolution (`fp`), each passed through verbatim on failure — write the dag,
trigger the preparation dag (`trig`, 500 on failure), reconcile once more
against the post-trigger readings `rs2` and return 202. -/
def processModel (uid : String) (jobRow : Option Job) (rs : List Reading)
    (now : Nat) (pre ug fp trig : Bool) (rs2 : List Reading) :
    OpOutcome × Option Job :=
  match jobRow with
  | none => (OpOutcome.err notFoundErr, none)
  | some job =>
    if job.user_id = uid then
      match updateJobStatus job rs now with
      | none => (OpOutcome.err internalErr, some job)
      | some job1 =>
        if isActive job1.status then (OpOutcome.err processLockedErr, some job1)
        else if !pre then (OpOutcome.passthrough, some job1)
        else if !ug then (OpOutcome.passthrough, some job1)
        else if !fp then (OpOutcome.passthrough, some job1)
        else if !trig then (OpOutcome.err internalErr, some job1)
        else
          match updateJobStatus job1 rs2 now with
          | none => (OpOutcome.err internalErr, some job1)
          | some job2 => (OpOutcome.success 202, some job2)
    else (OpOutcome.err unauthorizedErr, some job)

/-- Result of one `cancel_processing` call: the envelope, the job row
afterwards, whether `_stop_airflow_job` ran and whether
`delete_job_without_results` ran. -/
structure CancelResult where
  outcome : OpOutcome
  jobRow : Option Job
  stopInvoked : Bool
  cleanupInvoked : Bool
deriving DecidableEq, Repr

/-- `cancel_processing`: authorize, reconcile; when the job is queued or
running, stop it, delete the non-result artifacts
(`resultsExist` is the collaborator's report whether results remain) and set
the status to `canceled` when the job was running and results exist, else to
`created`; otherwise fall through to the 204 success untouched. -/
def cancelModel (uid : String) (jobRow : Option Job) (rs : List Reading)
    (now : Nat) (resultsExist : Bool) : CancelResult :=
  match jobRow with
  | none => ⟨OpOutcome.err notFoundErr, none, false, false⟩
  | some job =>
    if job.user_id = uid then
      match updateJobStatus job rs now with
      | none => ⟨OpOutcome.err internalErr, some job, false, false⟩
      | some job1 =>
        if isActive job1.status then
          if job1.status == some JobStatus.running && resultsExist then
            ⟨OpOutcome.success 204,
              some (setJobStatus job1 JobStatus.canceled now), true, true⟩
          else
            ⟨OpOutcome.success 204,
              some (setJobStatus job1 JobStatus.created now), true, true⟩
        else ⟨OpOutcome.success 204, some job1, false, false⟩
    else ⟨OpOutcome.err unauthorizedErr, some job, false, false⟩

/-- `get_results`: authorize, reconcile, then branch on the reconciled status:
`error` → 424 with the stored error, `canceled` → 400, any of
`created/queued/running` → `JobNotFinished(400)`; only past those guards is
the output listing fetched (`outputOk` abstracts the files-service response)
and a 200 with the assets returned. -/
def getResultsModel (uid : String) (jobRow : Option Job) (rs : List Reading)
    (now : Nat) (outputOk : Bool) : OpOutcome × Option Job :=
  match jobRow with
  | none => (OpOutcome.err notFoundErr, none)
  | some job =>
    if job.user_id = uid then
      match updateJobStatus job rs now with
      | none => (OpOutcome.err internalErr, some job)
      | some job1 =>
        match job1.status with
        | some JobStatus.error => (OpOutcome.err jobErrorErr, some job1)
        | some JobStatus.canceled => (OpOutcome.err jobCanceledErr, some job1)
        | some JobStatus.created => (OpOutcome.err notFinishedErr, some job1)
        | some JobStatus.queued => (OpOutcome.err notFinishedErr, some job1)
        | some JobStatus.running => (OpOutcome.err notFinishedErr, some job1)
        | _ =>
          if outputOk then (OpOutcome.success 200, some job1)
          else (OpOutcome.passthrough, some job1)
    else (OpOutcome.err unauthorizedErr, some job)

/-!
The Stop Protocol (`_stop_airflow_job`).  Its polling loop evaluates the
Python expression `self.airflow.check_dag_status(job_id) != JobStatus.running`.
`check_dag_status` returns a `(status, execution_time)` tuple (it is unpacked
as such in `_update_job_status`), so the loop condition compares a tuple with
an enum member.  We embed enough of Python's value equality to capture this:
`==` between a tuple and a non-tuple is `False`, hence `!=` is `True`.
-/

/-- A fragment of Python's value universe: the tuples, status enum members,
timestamps and `None` that flow through the status-reader interface. -/
inductive PyVal where
  | tuple (a b : PyVal)
  | status (s : JobStatus)
  | time (t : Nat)
  | pyNone
deriving DecidableEq, Repr

/-- Python `==` on those values: structural on tuples, value equality within
one constructor, `False` across constructors (tuple vs enum in particular). -/
def pyEq : PyVal → PyVal → Bool
  | PyVal.tuple a b, PyVal.tuple c d => pyEq a c && pyEq b d
  | PyVal.status s, PyVal.status s2 => s == s2
  | PyVal.time t, PyVal.time t2 => t == t2
  | PyVal.pyNone, PyVal.pyNone => true
  | _, _ => false

/-- The Python value returned by `check_dag_status`: the
`(status, execution_time)` tuple, with `None` for empty components. -/
def readingPy (r : Reading) : PyVal :=
  PyVal.tuple
    (match r.1 with | some s => PyVal.status s | none => PyVal.pyNone)
    (match r.2 with | some t => PyVal.time t | none => PyVal.pyNone)

/-- One iteration of the wait loop:
`job_stopped = self.airflow.check_dag_status(job_id) != JobStatus.running`. -/
def stopLoopDone (r : Reading) : Bool :=
  !(pyEq (readingPy r) (PyVal.status JobStatus.running))

/-- The wait loop of `_stop_airflow_job`, fuelled: `obs n` is the reading of
the n-th poll; the result is the index of the poll after which the loop
exits, or `none` if it is still spinning when the fuel runs out. -/
def stopPollLoop (obs : Nat → Reading) : Nat → Option Nat
  | 0 => none
  | fuel + 1 =>
    if stopLoopDone (obs 0) then some 0
    else (stopPollLoop (fun n => obs (n + 1)) fuel).map (· + 1)

/-- Trace of one `_stop_airflow_job` call: the stop-marker file is uploaded
first, then the wait loop runs. -/
structure StopRun where
  markerWritten : Bool
  exitPoll : Option Nat
deriving DecidableEq, Repr

/-- `_stop_airflow_job`: upload the stop file, then poll (sleeping
`check_stop_interval` between polls) until the loop condition reports the job
stopped. -/
def stopAirflowJob (obs : Nat → Reading) (fuel : Nat) : StopRun :=
  ⟨true, stopPollLoop obs fuel⟩

/-- An orchestrator that reports the execution unit `running` forever. -/
def alwaysRunning : Nat → Reading := fun _ => (some JobStatus.running, some 1)

theorem allSome_exists_of_isSome :
    ∀ l : List (Option Nat), (∀ x ∈ l, x.isSome) → ∃ ts, allSome l = some ts
  | [], _ => ⟨[], rfl⟩
  | none :: _, h => by simp at h
  | some t :: r, h => by
    obtain ⟨ts, hts⟩ :=
      allSome_exists_of_isSome r (fun x hx => h x (List.mem_cons_of_mem _ hx))
    exact ⟨t :: ts, by simp [allSome, hts]⟩

theorem allSome_length {l : List (Option Nat)} {ts : List Nat}
    (h : allSome l = some ts) : ts.length = l.length := by
  induction l generalizing ts with
  | nil =>
    simp only [allSome, Option.some.injEq] at h
    subst h; rfl
  | cons x r ih =>
    cases x with
    | none => simp [allSome] at h
    | some t =>
      simp only [allSome, Option.map_eq_some'] at h
      obtain ⟨ts2, hts2, rfl⟩ := h
      simp [ih hts2]

theorem allSome_get? {l : List (Option Nat)} {ts : List Nat}
    (h : allSome l = some ts) : ∀ i, l.get? i = (ts.get? i).map some := by
  induction l generalizing ts with
  | nil =>
    simp only [allSome, Option.some.injEq] at h
    subst h; intro i; cases i <;> simp
  | cons x r ih =>
    cases x with
    | none => simp [allSome] at h
    | some t =>
      simp only [allSome, Option.map_eq_some'] at h
      obtain ⟨ts2, hts2, rfl⟩ := h
      intro i
      cases i with
      | zero => simp
      | succ j => simpa using ih hts2 j

theorem mem_of_allSome {l : List (Option Nat)} {ts : List Nat} {t : Nat}
    (h : allSome l = some ts) (hm : some t ∈ l) : t ∈ ts := by
  obtain ⟨n, hn⟩ := List.mem_iff_get?.1 hm
  have := allSome_get? h n
  rw [hn] at this
  rcases hts : ts.get? n with _ | t2
  · rw [hts] at this; simp at this
  · rw [hts] at this
    simp only [Option.map_some', Option.some.injEq] at this
    subst this
    exact List.mem_iff_get?.2 ⟨n, hts⟩

/-- `isActive` decides exactly the locked statuses. -/
theorem isActive_iff (s : Option JobStatus) :
    isActive s = true ↔ (s = some JobStatus.queued ∨ s = some JobStatus.running) := by
  cases s with
  | none => decide
  | some v => cases v <;> decide

/-- The candidate-qualification condition in the spec's words: the reported
status is non-empty, and the job has no status yet, or its current status is
one of `created, queued, running, error`, or the reported last execution time
is strictly newer than the job's `status_updated_at`. -/
def QualifiesSpec (job : Job) (r : Reading) : Prop :=
  (∃ s, r.1 = some s) ∧
    (job.status = none ∨
      (∃ s, job.status = some s ∧
        (s = JobStatus.created ∨ s = JobStatus.queued ∨
          s = JobStatus.running ∨ s = JobStatus.error)) ∨
      (∃ t, r.2 = some t ∧ job.status_updated_at < t))


instance : LawfulBEq JobStatus := by
  constructor
  · intro a b h
    cases a <;> cases b <;> first | rfl | exact absurd h (by decide)
  · intro a
    cases a <;> rfl

theorem qualifies_iff (job : Job) (r : Reading) :
    qualifies job r = true ↔ QualifiesSpec job r := by
  obtain ⟨s?, t?⟩ := r
  cases s? with
  | none => simp [qualifies, QualifiesSpec]
  | some s =>
    cases hst : job.status with
    | none =>
      cases t? <;> simp [qualifies, QualifiesSpec, hst]
    | some cur =>
      cases t? with
      | none =>
        cases cur <;> simp [qualifies, QualifiesSpec, hst]
      | some t =>
        cases cur <;> simp [qualifies, QualifiesSpec, hst]

/-- C2: during reconciliation an execution unit's reported
`(status, last_execution_time)` pair is collected as a qualifying candidate
(with exactly that status and time) if and only if the reported status is
non-empty and at least one of: the job has no status yet, the job's current
status is one of `created, queued, running, error`, or the reported last
execution time is strictly newer than the job's `status_updated_at`. -/
theorem c2_candidate_collection (job : Job) (r : Reading) :
    (∃ s, r.1 = some s ∧ collectCandidates job [r] = [(s, r.2)]) ↔
      QualifiesSpec job r := by
  rw [← qualifies_iff]
  obtain ⟨s?, t?⟩ := r
  constructor
  · rintro ⟨s, hs, hc⟩
    cases hq : qualifies job (s?, t?) with
    | true => rfl
    | false => simp [collectCandidates, hq] at hc
  · intro hq
    cases s? with
    | none => simp [qualifies] at hq
    | some s => exact ⟨s, rfl, by simp [collectCandidates, hq]⟩

/-- C1: reconciliation merges the qualifying candidates of a job's execution
units as follows — with zero candidates the job is left unchanged; when all
candidates report the same status that status is written; when candidates
disagree (their execution times being set, which the source relies on in this
branch) the status of a candidate carrying the maximal
`last_execution_time` is written. -/
theorem c1_status_merge (job : Job) (rs : List Reading) (now : Nat) :
    (collectCandidates job rs = [] → updateJobStatus job rs now = some job)
    ∧ (∀ s : JobStatus, collectCandidates job rs ≠ [] →
        (∀ c ∈ collectCandidates job rs, c.1 = s) →
        updateJobStatus job rs now
          = some { job with status := some s, status_updated_at := now })
    ∧ ((∃ c ∈ collectCandidates job rs, ∃ d ∈ collectCandidates job rs,
          c.1 ≠ d.1) →
        (∀ c ∈ collectCandidates job rs, (c.2).isSome = true) →
        ∃ cmax tm, cmax ∈ collectCandidates job rs ∧ cmax.2 = some tm ∧
          (∀ d ∈ collectCandidates job rs, ∀ td, d.2 = some td → td ≤ tm) ∧
          updateJobStatus job rs now
            = some { job with status := some cmax.1, status_updated_at := now }) := by
  refine ⟨?_, ?_, ?_⟩
  · intro h
    simp only [updateJobStatus, h]
  · intro s hne hall
    rcases hc : collectCandidates job rs with _ | ⟨c0, cs⟩
    · exact absurd hc hne
    · have hc0 : c0 ∈ collectCandidates job rs := by
        rw [hc]; exact List.mem_cons_self c0 cs
      have hb : (c0 :: cs).all (fun d => d.1 == c0.1) = true := by
        rw [List.all_eq_true]
        intro d hd
        rw [beq_iff_eq, hall d (by rw [hc]; exact hd), hall c0 hc0]
      have hs0 : c0.1 = s := hall c0 hc0
      simp only [updateJobStatus, hc, hb, if_true]
      rw [hs0]
  · intro hdis hsome
    rcases hc : collectCandidates job rs with _ | ⟨c0, cs⟩
    · obtain ⟨c, hcmem, _⟩ := hdis
      rw [hc] at hcmem
      simp at hcmem
    · have hb : (c0 :: cs).all (fun d => d.1 == c0.1) = false := by
        apply Bool.eq_false_iff.2
        intro habs
        rw [List.all_eq_true] at habs
        obtain ⟨c, hcmem, d, hdmem, hcd⟩ := hdis
        rw [hc] at hcmem hdmem
        have h1 := habs c hcmem
        have h2 := habs d hdmem
        rw [beq_iff_eq] at h1 h2
        exact hcd (h1.trans h2.symm)
      have hsome2 : ∀ x ∈ (c0 :: cs).map Prod.snd, x.isSome = true := by
        intro x hx
        rw [List.mem_map] at hx
        obtain ⟨c, hcmem, rfl⟩ := hx
        exact hsome c (by rw [hc]; exact hcmem)
      obtain ⟨ts, hts⟩ := allSome_exists_of_isSome _ hsome2
      have hlen : ts.length = cs.length + 1 := by
        have h := allSome_length hts
        simpa using h
      have htsne : ts ≠ [] := by
        intro h0
        rw [h0] at hlen
        simp at hlen
      obtain ⟨m, hm⟩ : ∃ m, ts.max? = some m := by
        rcases h : ts.max? with _ | m
        · rw [List.max?_eq_none_iff] at h
          exact absurd h htsne
        · exact ⟨m, rfl⟩
      have hmmem : m ∈ ts := List.max?_mem (fun a b => max_choice a b) hm
      have hle : ∀ b ∈ ts, b ≤ m :=
        (List.max?_le_iff (fun a b c => max_le_iff) hm).1 (le_refl m)
      have hidx : ts.indexOf m < (c0 :: cs).length := by
        have h := List.indexOf_lt_length.2 hmmem
        rw [hlen] at h
        simpa using h
      obtain ⟨cmax, hget⟩ :
          ∃ cmax, (c0 :: cs).get? (ts.indexOf m) = some cmax := by
        rcases hg : (c0 :: cs).get? (ts.indexOf m) with _ | cm
        · rw [List.get?_eq_none] at hg
          omega
        · exact ⟨cm, rfl⟩
      have hcmem : cmax ∈ c0 :: cs := List.mem_iff_get?.2 ⟨_, hget⟩
      have hsnd : cmax.2 = some m := by
        have h1 := allSome_get? hts (ts.indexOf m)
        have h2 : ts.get? (ts.indexOf m) = some m := List.indexOf_get? hmmem
        have h3 : (List.map Prod.snd (c0 :: cs)).get? (ts.indexOf m)
            = ((c0 :: cs).get? (ts.indexOf m)).map Prod.snd := by
          rw [List.get?_eq_getElem?, List.get?_eq_getElem?, List.getElem?_map]
        rw [h2, h3, hget] at h1
        simpa using h1
      have hbound : ∀ d ∈ c0 :: cs, ∀ td, d.2 = some td → td ≤ m := by
        intro d hdmem td htd
        apply hle
        apply mem_of_allSome hts
        rw [← htd]
        exact List.mem_map.2 ⟨d, hdmem, rfl⟩
      refine ⟨cmax, m, hcmem, hsnd, hbound, ?_⟩
      have hts2 : allSome (c0.2 :: List.map Prod.snd cs) = some ts := by
        simpa using hts
      have hget2 : (c0 :: cs)[ts.indexOf m]? = some cmax := by
        simpa using hget
      simp [updateJobStatus, hc, hb, hts2, hm, hget2]

theorem c1_status_merge_witness :
    ∃ cmax tm,
      cmax ∈ collectCandidates ⟨"u", some JobStatus.running, 3⟩
        [(some JobStatus.finished, some 5), (some JobStatus.error, some 9)]
      ∧ cmax.2 = some tm
      ∧ (∀ d ∈ collectCandidates ⟨"u", some JobStatus.running, 3⟩
            [(some JobStatus.finished, some 5), (some JobStatus.error, some 9)],
          ∀ td, d.2 = some td → td ≤ tm)
      ∧ updateJobStatus ⟨"u", some JobStatus.running, 3⟩
          [(some JobStatus.finished, some 5), (some JobStatus.error, some 9)] 10
        = some { Job.mk "u" (some JobStatus.running) 3 with
            status := some cmax.1, status_updated_at := 10 } :=
  (c1_status_merge ⟨"u", some JobStatus.running, 3⟩
    [(some JobStatus.finished, some 5), (some JobStatus.error, some 9)] 10).2.2
    (by decide) (by decide)

/-- A response "fails with a Locked error" when it is an error envelope this
service raised with HTTP-equivalent code 400 and `internal=false`. -/
def isLockedOutcome (o : OpOutcome) : Bool :=
  match o with
  | OpOutcome.err e => e.code == 400 && !e.internal
  | _ => false

/-- C3: for an existing job owned by the caller, `modify` and `process` fail
with a Locked error (code 400, `internal=false`) if and only if the job's
reconciled status is `queued` or `running`. -/
theorem c3_locked_iff (uid : String) (job job1 : Job) (rs rs2 : List Reading)
    (now : Nat) (processArg : Option Bool) (pre ug fp trig : Bool)
    (hown : job.user_id = uid)
    (hrec : updateJobStatus job rs now = some job1) :
    (isLockedOutcome (modifyModel uid (some job) rs now processArg).1 = true
      ↔ (job1.status = some JobStatus.queued
          ∨ job1.status = some JobStatus.running))
    ∧ (isLockedOutcome
          (processModel uid (some job) rs now pre ug fp trig rs2).1 = true
      ↔ (job1.status = some JobStatus.queued
          ∨ job1.status = some JobStatus.running)) := by
  cases hact : isActive job1.status with
  | false =>
    have hrhs : ¬(job1.status = some JobStatus.queued
        ∨ job1.status = some JobStatus.running) := by
      intro h
      rw [← isActive_iff, hact] at h
      exact Bool.false_ne_true h
    constructor
    · apply iff_of_false ?_ hrhs
      rcases processArg with _ | b
      · simp [modifyModel, hown, hrec, hact, isLockedOutcome]
      · cases b <;> simp [modifyModel, hown, hrec, hact, isLockedOutcome]
    · apply iff_of_false ?_ hrhs
      rcases h2 : updateJobStatus job1 rs2 now with _ | j2 <;>
        cases pre <;> cases ug <;> cases fp <;> cases trig <;>
          simp [processModel, hown, hrec, hact, h2, isLockedOutcome,
            internalErr]
  | true =>
    have hrhs : job1.status = some JobStatus.queued
        ∨ job1.status = some JobStatus.running := (isActive_iff _).1 hact
    constructor
    · apply iff_of_true ?_ hrhs
      have h : (modifyModel uid (some job) rs now processArg).1
          = OpOutcome.err modifyLockedErr := by
        simp [modifyModel, hown, hrec, hact]
      rw [h]
      decide
    · apply iff_of_true ?_ hrhs
      have h : (processModel uid (some job) rs now pre ug fp trig rs2).1
          = OpOutcome.err processLockedErr := by
        simp [processModel, hown, hrec, hact]
      rw [h]
      decide

theorem c3_locked_iff_witness :
    isLockedOutcome
      (modifyModel "u" (some ⟨"u", some JobStatus.queued, 0⟩) [] 0 none).1 = true
    ∧ isLockedOutcome
        (processModel "u" (some ⟨"u", some JobStatus.queued, 0⟩) [] 0
          true true true true []).1 = true := by
  have h := c3_locked_iff "u" ⟨"u", some JobStatus.queued, 0⟩
    ⟨"u", some JobStatus.queued, 0⟩ [] [] 0 none true true true true rfl
    (by decide)
  exact ⟨h.1.mpr (Or.inl rfl), h.2.mpr (Or.inl rfl)⟩

/-- C4: on a job whose reconciled status is `running` or `queued`,
`cancel_processing` invokes the Stop Protocol, deletes the non-result
artifacts, and persists status `canceled` when the job was `running` and
results remain after the cleanup, `created` otherwise. -/
theorem c4_cancel_active (uid : String) (job job1 : Job) (rs : List Reading)
    (now : Nat) (resultsExist : Bool)
    (hown : job.user_id = uid)
    (hrec : updateJobStatus job rs now = some job1)
    (hact : job1.status = some JobStatus.running
        ∨ job1.status = some JobStatus.queued) :
    cancelModel uid (some job) rs now resultsExist
      = ⟨OpOutcome.success 204,
          some (setJobStatus job1
            (if job1.status = some JobStatus.running ∧ resultsExist = true
              then JobStatus.canceled else JobStatus.created) now),
          true, true⟩ := by
  rcases hact with h | h <;> cases resultsExist <;>
    simp [cancelModel, hown, hrec, h, isActive]

theorem c4_cancel_active_witness :
    cancelModel "u" (some ⟨"u", some JobStatus.running, 0⟩) [] 7 true
      = ⟨OpOutcome.success 204,
          some (setJobStatus ⟨"u", some JobStatus.running, 0⟩
            (if (Job.mk "u" (some JobStatus.running) 0).status
                  = some JobStatus.running ∧ true = true
              then JobStatus.canceled else JobStatus.created) 7),
          true, true⟩ :=
  c4_cancel_active "u" ⟨"u", some JobStatus.running, 0⟩
    ⟨"u", some JobStatus.running, 0⟩ [] 7 true rfl (by decide) (Or.inl rfl)

/-- C5: on an existing owned job whose reconciled status is neither `running`
nor `queued`, `cancel_processing` returns the 204 success envelope without
invoking the Stop Protocol, without the cleanup call and without touching the
job row. -/
theorem c5_cancel_noop (uid : String) (job job1 : Job) (rs : List Reading)
    (now : Nat) (resultsExist : Bool)
    (hown : job.user_id = uid)
    (hrec : updateJobStatus job rs now = some job1)
    (hinact : job1.status ≠ some JobStatus.running
        ∧ job1.status ≠ some JobStatus.queued) :
    cancelModel uid (some job) rs now resultsExist
      = ⟨OpOutcome.success 204, some job1, false, false⟩ := by
  have hactb : isActive job1.status = false := by
    cases hb : isActive job1.status
    · rfl
    · rcases (isActive_iff _).1 hb with h | h
      · exact absurd h hinact.2
      · exact absurd h hinact.1
  simp [cancelModel, hown, hrec, hactb]

theorem c5_cancel_noop_witness :
    cancelModel "u" (some ⟨"u", some JobStatus.finished, 4⟩) [] 7 true
      = ⟨OpOutcome.success 204, some ⟨"u", some JobStatus.finished, 4⟩,
          false, false⟩ :=
  c5_cancel_noop "u" ⟨"u", some JobStatus.finished, 4⟩
    ⟨"u", some JobStatus.finished, 4⟩ [] 7 true rfl (by decide)
    (by exact ⟨by decide, by decide⟩)

/-- C6 counterexample: the claim asserts that with `delayed=true` the
execution-unit cleanup and the database-row removal are skipped and that the
row is not removed before the delayed step completes.  On a concrete delayed
delete of an owned `created` job, the main path nevertheless removes the dags
and deletes the database row immediately, refuting the claim as stated. -/
theorem c6_delayed_skips_counterexample :
    ¬ ((deleteModel "u" (some ⟨"u", some JobStatus.created, 0⟩) [] 1
          true).2.2.fsDeleteScheduledDelayed = true
        ∧ (deleteModel "u" (some ⟨"u", some JobStatus.created, 0⟩) [] 1
            true).2.2.fsDeletedImmediately = false
        ∧ (deleteModel "u" (some ⟨"u", some JobStatus.created, 0⟩) [] 1
            true).2.2.dagsRemoved = false
        ∧ (deleteModel "u" (some ⟨"u", some JobStatus.created, 0⟩) [] 1
            true).2.1 ≠ none) := by
  decide

/-- C6 (amended): when `delete` is called with `delayed=true`, only the
filesystem cleanup is deferred (scheduled on a background thread, nothing is
deleted from the filesystem inline), while the execution-unit cleanup and the
database-row removal still run immediately in the main path — the row is
gone before the delayed step completes. -/
theorem c6_delayed_delete (uid : String) (job job1 : Job) (rs : List Reading)
    (now : Nat)
    (hown : job.user_id = uid)
    (hrec : updateJobStatus job rs now = some job1) :
    deleteModel uid (some job) rs now true
      = (OpOutcome.success 204, none,
          ⟨isActive job1.status, false, true, true⟩) := by
  simp [deleteModel, hown, hrec]

theorem c6_delayed_delete_witness :
    deleteModel "u" (some ⟨"u", some JobStatus.finished, 0⟩) [] 2 true
      = (OpOutcome.success 204, none,
          ⟨isActive (some JobStatus.finished), false, true, true⟩) :=
  c6_delayed_delete "u" ⟨"u", some JobStatus.finished, 0⟩
    ⟨"u", some JobStatus.finished, 0⟩ [] 2 rfl (by decide)

/-- C7: the claim says the Stop Protocol returns only after an observation in
which the unit's status is not `running`.  In the source the loop condition
compares the `(status, execution_time)` tuple returned by the status reader
with the enum member `JobStatus.running`; in Python a tuple never equals an
enum member, so the condition is `True` on every poll: the loop exits after
its first poll even against an orchestrator that reports `running` forever,
and the last status read was `running`. -/
theorem c7_stop_exits_while_running :
    (∀ r : Reading, stopLoopDone r = true)
    ∧ stopAirflowJob alwaysRunning 1 = ⟨true, some 0⟩
    ∧ (alwaysRunning 0).1 = some JobStatus.running := by
  refine ⟨?_, rfl, rfl⟩
  intro r
  obtain ⟨s?, t?⟩ := r
  cases s? <;> cases t? <;> rfl

/-- C8: on an existing owned job whose reconciled status is `created`,
`queued` or `running`, `get_results` returns the `JobNotFinished` envelope
(code 400, `internal=false`) and no success payload (hence no result
assets). -/
theorem c8_get_results_not_finished (uid : String) (job job1 : Job)
    (rs : List Reading) (now : Nat) (outputOk : Bool)
    (hown : job.user_id = uid)
    (hrec : updateJobStatus job rs now = some job1)
    (hs : job1.status = some JobStatus.created
        ∨ job1.status = some JobStatus.queued
        ∨ job1.status = some JobStatus.running) :
    (getResultsModel uid (some job) rs now outputOk).1
        = OpOutcome.err notFinishedErr
    ∧ ∀ c, (getResultsModel uid (some job) rs now outputOk).1
        ≠ OpOutcome.success c := by
  rcases hs with h | h | h <;> simp [getResultsModel, hown, hrec, h]

theorem c8_get_results_not_finished_witness :
    (getResultsModel "u" (some ⟨"u", some JobStatus.created, 0⟩)
        [(none, none), (none, none)] 5 true).1 = OpOutcome.err notFinishedErr
    ∧ ∀ c, (getResultsModel "u" (some ⟨"u", some JobStatus.created, 0⟩)
        [(none, none), (none, none)] 5 true).1 ≠ OpOutcome.success c :=
  c8_get_results_not_finished "u" ⟨"u", some JobStatus.created, 0⟩
    ⟨"u", some JobStatus.created, 0⟩ [(none, none), (none, none)] 5 true rfl
    (by decide) (Or.inl rfl)

/-- C9: both status writers persist the status together with a refreshed
`status_updated_at` in the same commit: `_set_job_status` always stamps the
given time, and `_update_job_status` either leaves the row exactly as it was
(no commit) or stamps the current time in the same record write as the
status. -/
theorem c9_status_updated_at_atomic :
    (∀ (job : Job) (s : JobStatus) (now : Nat),
      (setJobStatus job s now).status_updated_at = now
        ∧ (setJobStatus job s now).status = some s)
    ∧ (∀ (job : Job) (rs : List Reading) (now : Nat) (job1 : Job),
        updateJobStatus job rs now = some job1 →
        job1 = job ∨ job1.status_updated_at = now) := by
  constructor
  · intro job s now
    exact ⟨rfl, rfl⟩
  · intro job rs now job1 h
    rw [updateJobStatus] at h
    split at h
    · left
      exact (Option.some.inj h).symm
    · split at h
      · right
        injection h with h2
        rw [← h2]
      · split at h
        · exact Option.noConfusion h
        · split at h
          · exact Option.noConfusion h
          · split at h
            · exact Option.noConfusion h
            · right
              injection h with h2
              rw [← h2]

theorem c9_status_updated_at_atomic_witness :
    (Job.mk "u" (some JobStatus.finished) 9) = ⟨"u", some JobStatus.running, 3⟩
      ∨ (Job.mk "u" (some JobStatus.finished) 9).status_updated_at = 9 :=
  c9_status_updated_at_atomic.2 ⟨"u", some JobStatus.running, 3⟩
    [(some JobStatus.finished, some 5)] 9 ⟨"u", some JobStatus.finished, 9⟩
    (by decide)

/-- C10: every public job operation first authorizes: a missing job id yields
the 400 (not 404) non-internal envelope, a job owned by a different user the
401 non-internal envelope, and in both cases the job row and the side-effect
record are untouched. -/
theorem c10_authorize_guard (uid : String) (job : Job) (rs rs2 : List Reading)
    (now : Nat) (processArg : Option Bool)
    (pre ug fp trig graphOk outputOk resultsExist delayed : Bool)
    (hother : job.user_id ≠ uid) :
    getModel uid none rs now graphOk = (OpOutcome.err notFoundErr, none)
    ∧ getModel uid (some job) rs now graphOk
        = (OpOutcome.err unauthorizedErr, some job)
    ∧ modifyModel uid none rs now processArg = (OpOutcome.err notFoundErr, none)
    ∧ modifyModel uid (some job) rs now processArg
        = (OpOutcome.err unauthorizedErr, some job)
    ∧ deleteModel uid none rs now delayed
        = (OpOutcome.err notFoundErr, none, noDeleteEffects)
    ∧ deleteModel uid (some job) rs now delayed
        = (OpOutcome.err unauthorizedErr, some job, noDeleteEffects)
    ∧ processModel uid none rs now pre ug fp trig rs2
        = (OpOutcome.err notFoundErr, none)
    ∧ processModel uid (some job) rs now pre ug fp trig rs2
        = (OpOutcome.err unauthorizedErr, some job)
    ∧ cancelModel uid none rs now resultsExist
        = ⟨OpOutcome.err notFoundErr, none, false, false⟩
    ∧ cancelModel uid (some job) rs now resultsExist
        = ⟨OpOutcome.err unauthorizedErr, some job, false, false⟩
    ∧ getResultsModel uid none rs now outputOk
        = (OpOutcome.err notFoundErr, none)
    ∧ getResultsModel uid (some job) rs now outputOk
        = (OpOutcome.err unauthorizedErr, some job) := by
  refine ⟨rfl, ?_, rfl, ?_, rfl, ?_, rfl, ?_, rfl, ?_, rfl, ?_⟩ <;>
    simp [getModel, modifyModel, deleteModel, processModel, cancelModel,
      getResultsModel, hother]

theorem c10_authorize_guard_witness :
    getModel "a" none [] 0 true = (OpOutcome.err notFoundErr, none)
    ∧ getModel "a" (some ⟨"b", some JobStatus.created, 0⟩) [] 0 true
        = (OpOutcome.err unauthorizedErr, some ⟨"b", some JobStatus.created, 0⟩)
    ∧ modifyModel "a" none [] 0 none = (OpOutcome.err notFoundErr, none)
    ∧ modifyModel "a" (some ⟨"b", some JobStatus.created, 0⟩) [] 0 none
        = (OpOutcome.err unauthorizedErr, some ⟨"b", some JobStatus.created, 0⟩)
    ∧ deleteModel "a" none [] 0 false
        = (OpOutcome.err notFoundErr, none, noDeleteEffects)
    ∧ deleteModel "a" (some ⟨"b", some JobStatus.created, 0⟩) [] 0 false
        = (OpOutcome.err unauthorizedErr,
            some ⟨"b", some JobStatus.created, 0⟩, noDeleteEffects)
    ∧ processModel "a" none [] 0 true true true true []
        = (OpOutcome.err notFoundErr, none)
    ∧ processModel "a" (some ⟨"b", some JobStatus.created, 0⟩) [] 0
          true true true true []
        = (OpOutcome.err unauthorizedErr, some ⟨"b", some JobStatus.created, 0⟩)
    ∧ cancelModel "a" none [] 0 true
        = ⟨OpOutcome.err notFoundErr, none, false, false⟩
    ∧ cancelModel "a" (some ⟨"b", some JobStatus.created, 0⟩) [] 0 true
        = ⟨OpOutcome.err unauthorizedErr,
            some ⟨"b", some JobStatus.created, 0⟩, false, false⟩
    ∧ getResultsModel "a" none [] 0 true = (OpOutcome.err notFoundErr, none)
    ∧ getResultsModel "a" (some ⟨"b", some JobStatus.created, 0⟩) [] 0 true
        = (OpOutcome.err unauthorizedErr,
            some ⟨"b", some JobStatus.created, 0⟩) :=
  c10_authorize_guard "a" ⟨"b", some JobStatus.created, 0⟩ [] [] 0 none
    true true true true true true true false (by decide)
